import Mathlib

set_option maxRecDepth 4000

/-!
Verification of the two scripts in this repository:
`src/scripts/hexadecimal_array_generator.py` and `src/scripts/list-examples.py`.

The generator builds `range(start, final + step, step)` and, for each value,
prints `f"0x{left}_{right},"` where `left, right = value[0:4], value[4:8]` of
the string `f"{i:08X}"`; at the end it prints `len(array_range)`.
The lister checks that `cwd/examples` exists and is a directory (printing a
two-line diagnostic and exiting 1 otherwise) and then prints
`f"{index + 1} {path.stem}"` for each directory entry, in iteration order.

All strings are modelled as `List Char`; `print` calls become entries of an
output list, one per line; `exit(1)` becomes an exit-code component.
-/

/-- Uppercase hexadecimal digit character for a value below 16, exactly the
digit alphabet used by Python's `X` format code. -/
def hexDigitChar (n : Nat) : Char :=
  if n < 10 then Char.ofNat (48 + n) else Char.ofNat (55 + n)

/-- Fueled digit expansion: uppercase hexadecimal digits of `n`, most
significant first, no leading zeros (a single digit for `n < 16`).
The fuel is only there to make the recursion structural; any fuel above `n`
gives the same result. -/
def toHexAux : Nat → Nat → List Char
  | 0, _ => []
  | fuel + 1, n =>
    if n < 16 then [hexDigitChar n]
    else toHexAux fuel (n / 16) ++ [hexDigitChar (n % 16)]

/-- Uppercase hexadecimal digits of `n`, as produced by Python's `X` format
code before any zero padding. -/
def toHexNat (n : Nat) : List Char :=
  toHexAux (n + 1) n

/-- Decimal digit expansion with fuel, digits of `n` most significant first. -/
def toDecAux : Nat → Nat → List Char
  | 0, _ => []
  | fuel + 1, n =>
    if n < 10 then [Char.ofNat (48 + n)]
    else toDecAux fuel (n / 10) ++ [Char.ofNat (48 + n % 10)]

/-- Decimal rendering of a natural number, as produced by Python's `str`. -/
def toDecNat (n : Nat) : List Char :=
  toDecAux (n + 1) n

/-- Left-pad a digit string with `'0'` up to width `w`; strings already at
least `w` long are returned unchanged.  This is the zero padding performed by
Python's `08X` format code. -/
def pad0 (w : Nat) (l : List Char) : List Char :=
  List.replicate (w - l.length) '0' ++ l

/-- Python's `f"{i:08X}"`: sign-aware zero padding to total width 8.  A
negative value is rendered as `'-'` followed by its magnitude padded to
width 7, so that sign plus digits fill the field. -/
def pyFormat08X (i : Int) : List Char :=
  if i < 0 then '-' :: pad0 7 (toHexNat i.natAbs)
  else pad0 8 (toHexNat i.natAbs)

/-- One value line of the generator: with `value = f"{i:08X}"` and
`left, right = value[0:4], value[4:8]`, the printed line is
`f"0x{left}_{right},"`. -/
def renderLine (i : Int) : List Char :=
  '0' :: 'x' :: ((pyFormat08X i).take 4 ++
    '_' :: (((pyFormat08X i).drop 4).take 4 ++ [',']))

/-- Number of elements of Python's `range(a, b, s)` for `s ≠ 0`:
`max 0 ⌈(b - a) / s⌉` when `s > 0` and `max 0 ⌈(a - b) / (-s)⌉` when `s < 0`.
The `s = 0` case is never used; Python raises `ValueError` there. -/
def pyRangeLen (a b s : Int) : Nat :=
  if 0 < s then ((b - a + s - 1).fdiv s).toNat
  else if s < 0 then ((a - b + (-s) - 1).fdiv (-s)).toNat
  else 0

/-- Elements of Python's `range(a, b, s)`: the `i`-th element is `a + i * s`. -/
def pyRange (a b s : Int) : List Int :=
  (List.range (pyRangeLen a b s)).map (fun (i : Nat) => a + (i : Int) * s)

/-- The value lines printed by the generator's `for` loop over
`range(start, final + step, step)`. -/
def generatorValueLines (start final step : Int) : List (List Char) :=
  (pyRange start (final + step) step).map renderLine

/-- The final line of the generator: `print(f"{len(array_range)}")`. -/
def generatorCountLine (start final step : Int) : List Char :=
  toDecNat (pyRange start (final + step) step).length

/-- Complete output of the generator.  `none` models the `ValueError` that
Python's `range` raises for a zero step, before anything is printed. -/
def generatorRun (start final step : Int) : Option (List (List Char)) :=
  if step = 0 then none
  else some (generatorValueLines start final step ++
    [generatorCountLine start final step])

/-- Decidable test for an uppercase hexadecimal digit, `[0-9A-F]`. -/
def isUpperHexDigit (c : Char) : Bool :=
  (decide ('0' ≤ c) && decide (c ≤ '9')) || (decide ('A' ≤ c) && decide (c ≤ 'F'))

/-- Recognizer for the line pattern `0x[0-9A-F]{4}_[0-9A-F]{4},`. -/
def matchesPattern : List Char → Bool
  | [a, b, c1, c2, c3, c4, u, c5, c6, c7, c8, z] =>
    a == '0' && b == 'x' && u == '_' && z == ',' &&
    isUpperHexDigit c1 && isUpperHexDigit c2 &&
    isUpperHexDigit c3 && isUpperHexDigit c4 &&
    isUpperHexDigit c5 && isUpperHexDigit c6 &&
    isUpperHexDigit c7 && isUpperHexDigit c8
  | _ => false

/-- Numeric value of an uppercase hexadecimal digit character. -/
def hexCharVal (c : Char) : Nat :=
  if c ≤ '9' then c.toNat - 48 else c.toNat - 55

/-- Value denoted by a string of uppercase hexadecimal digits, most
significant first. -/
def fromHexDigits (l : List Char) : Nat :=
  l.foldl (fun acc c => 16 * acc + hexCharVal c) 0

/-- One entry yielded by `path_examples.iterdir()`: its final-component name
and whether it is a directory.  The script never branches on the kind; the
field records it so that claims about directories can be stated. -/
structure DirEntry where
  name : List Char
  isDir : Bool
deriving DecidableEq

/-- State of the filesystem at the resolved `examples` path: whether the path
exists, whether it is a directory, and its entries in iteration order. -/
structure ExamplesFS where
  pathExists : Bool
  isDir : Bool
  entries : List DirEntry
deriving DecidableEq

/-- Index of the last `'.'` in a name, scanning left to right while keeping
the most recent hit; mirrors `str.rfind('.')` with `none` for "not found". -/
def rfindDotAux : List Char → Nat → Option Nat → Option Nat
  | [], _, acc => acc
  | c :: rest, i, acc =>
    rfindDotAux rest (i + 1) (if c == '.' then some i else acc)

/-- `pathlib.PurePath.stem`: the final component without its suffix.  The
suffix is `name[i:]` for the last dot index `i` only when `0 < i < len - 1`;
otherwise the name is returned whole. -/
def pyStem (name : List Char) : List Char :=
  match rfindDotAux name 0 none with
  | none => name
  | some i => if 0 < i ∧ i < name.length - 1 then name.take i else name

/-- The lister's `for (index, path) in enumerate(...)` loop body,
`print(f"{index + 1} {path.stem}")`, starting at enumeration index `k`. -/
def listerLoop (k : Nat) : List DirEntry → List (List Char)
  | [] => []
  | e :: rest => (toDecNat (k + 1) ++ ' ' :: pyStem e.name) :: listerLoop (k + 1) rest

/-- Complete run of `list-examples.py` against a filesystem state, given the
rendering of the resolved `examples` path: the printed lines and the process
exit code. -/
def listerRun (fs : ExamplesFS) (path : List Char) : List (List Char) × Nat :=
  if fs.pathExists = false then
    (["Path to examples does not exist.".data, " - ".data ++ path], 1)
  else if fs.isDir = false then
    (["Path to examples is not a directory.".data, " - ".data ++ path], 1)
  else
    (listerLoop 0 fs.entries, 0)

/-! Helper lemmas about the digit expansion. -/

/-- Any two sufficient fuels give the same digit string. -/
lemma toHexAux_stable : ∀ f₁ f₂ n, n < f₁ → n < f₂ →
    toHexAux f₁ n = toHexAux f₂ n := by
  intro f₁
  induction f₁ with
  | zero => intro f₂ n h₁ _; omega
  | succ f ih =>
    intro f₂ n h₁ h₂
    cases f₂ with
    | zero => omega
    | succ g =>
      by_cases h16 : n < 16
      · simp [toHexAux, h16]
      · have hdiv : n / 16 < n := Nat.div_lt_self (by omega) (by omega)
        simp only [toHexAux, h16, if_false]
        rw [ih g (n / 16) (by omega) (by omega)]

/-- Unfolding of `toHexNat` at a value of at least two digits. -/
lemma toHexNat_step (n : Nat) (h : 16 ≤ n) :
    toHexNat n = toHexNat (n / 16) ++ [hexDigitChar (n % 16)] := by
  have hdiv : n / 16 < n := Nat.div_lt_self (by omega) (by omega)
  show toHexAux (n + 1) n = toHexAux (n / 16 + 1) (n / 16) ++ [hexDigitChar (n % 16)]
  rw [toHexAux_stable (n / 16 + 1) n (n / 16) (by omega) (by omega)]
  rw [toHexAux]
  rw [if_neg (Nat.not_lt_of_ge h)]

/-- Unfolding of `toHexNat` at a single-digit value. -/
lemma toHexNat_small (n : Nat) (h : n < 16) :
    toHexNat n = [hexDigitChar n] := by
  simp [toHexNat, toHexAux, h]

/-- Every digit character produced for a value below 16 is `[0-9A-F]`. -/
lemma isUpperHexDigit_hexDigitChar (n : Nat) (h : n < 16) :
    isUpperHexDigit (hexDigitChar n) = true := by
  interval_cases n <;> decide

/-- Every character of the digit expansion is an uppercase hex digit. -/
lemma toHexAux_hex : ∀ fuel n c, c ∈ toHexAux fuel n →
    isUpperHexDigit c = true := by
  intro fuel
  induction fuel with
  | zero => intro n c hc; simp [toHexAux] at hc
  | succ f ih =>
    intro n c hc
    by_cases h16 : n < 16
    · simp only [toHexAux, h16, if_true, List.mem_singleton] at hc
      subst hc
      exact isUpperHexDigit_hexDigitChar n h16
    · simp only [toHexAux, h16, if_false, List.mem_append,
        List.mem_singleton] at hc
      rcases hc with hc | hc
      · exact ih (n / 16) c hc
      · subst hc
        exact isUpperHexDigit_hexDigitChar (n % 16) (Nat.mod_lt n (by omega))

/-- Every character of `toHexNat n` is an uppercase hex digit. -/
lemma toHexNat_hex (n : Nat) (c : Char) (hc : c ∈ toHexNat n) :
    isUpperHexDigit c = true :=
  toHexAux_hex (n + 1) n c hc

/-- Every character of the padded `08X` rendering of a nonnegative value is
an uppercase hex digit. -/
lemma pyFormat08X_hex (i : Int) (hi : 0 ≤ i) (c : Char)
    (hc : c ∈ pyFormat08X i) : isUpperHexDigit c = true := by
  simp only [pyFormat08X, not_lt.mpr hi, if_false, pad0, List.mem_append,
    List.mem_replicate] at hc
  rcases hc with ⟨-, hc⟩ | hc
  · subst hc; decide
  · exact toHexNat_hex i.natAbs c hc

/-- The padded `08X` rendering of a nonnegative value is at least 8
characters long. -/
lemma pyFormat08X_length (i : Int) (hi : 0 ≤ i) :
    8 ≤ (pyFormat08X i).length := by
  simp only [pyFormat08X, not_lt.mpr hi, if_false, pad0, List.length_append,
    List.length_replicate]
  omega

/-- Destructuring for character lists of length four. -/
lemma exists_four : ∀ (l : List Char), l.length = 4 →
    ∃ a b c d, l = [a, b, c, d]
  | [], h => by simp at h
  | [_], h => by simp at h
  | [_, _], h => by simp at h
  | [_, _, _], h => by simp at h
  | a :: b :: c :: d :: [], _ => ⟨a, b, c, d, rfl⟩
  | _ :: _ :: _ :: _ :: _ :: _, h => by
    simp only [List.length_cons] at h; omega

/-! Helper lemmas about floor division, used for the range length. -/

/-- Ceiling shift used by the generator's range bound: dividing
`d + 2s - 1` by `s` overshoots `⌊d / s⌋` by one exactly when `s ∣ d`,
and by two otherwise. -/
lemma ceil_shift (d s : Int) (hs : 0 < s) :
    (d + 2 * s - 1).fdiv s = d.fdiv s + (if d % s = 0 then 1 else 2) := by
  rw [Int.fdiv_eq_ediv _ (le_of_lt hs), Int.fdiv_eq_ediv _ (le_of_lt hs)]
  have h0 := Int.ediv_add_emod d s
  have hr0 : 0 ≤ d % s := Int.emod_nonneg d (ne_of_gt hs)
  have hrs : d % s < s := Int.emod_lt_of_pos d hs
  by_cases hr : d % s = 0
  · have key : d + 2 * s - 1 = (s - 1) + (d / s + 1) * s := by
      linear_combination (-1 : ℤ) * h0 + hr
    rw [key, Int.add_mul_ediv_right _ _ (ne_of_gt hs),
      Int.ediv_eq_zero_of_lt (by omega) (by omega), if_pos hr]
    ring
  · have key : d + 2 * s - 1 = (d % s - 1 + 1 * s) + (d / s + 1) * s := by
      linear_combination (-1 : ℤ) * h0
    rw [key, Int.add_mul_ediv_right _ _ (ne_of_gt hs),
      Int.add_mul_ediv_right _ _ (ne_of_gt hs),
      Int.ediv_eq_zero_of_lt (by omega) (by omega), if_neg hr]
    ring

/-- Exact division used for inclusive endpoints: `(m·s + s - 1) / s = m`
under floor division with a positive divisor. -/
lemma fdiv_mul_add_pred (t m : Int) (ht : 0 < t) :
    (m * t + (t - 1)).fdiv t = m := by
  rw [Int.fdiv_eq_ediv _ (le_of_lt ht), add_comm,
    Int.add_mul_ediv_right _ _ (ne_of_gt ht),
    Int.ediv_eq_zero_of_lt (by omega) (by omega)]
  ring

/-- The number of value lines is the length of the underlying range. -/
lemma generatorValueLines_length (start final step : Int) :
    (generatorValueLines start final step).length =
      pyRangeLen start (final + step) step := by
  rw [generatorValueLines, List.length_map, pyRange, List.length_map,
    List.length_range]

/-- C1 counterexample: for `start = 0, final = 5, step = 2` the loop runs over
`range(0, 7, 2) = [0, 2, 4, 6]` and emits 4 value lines, but
`⌊(final - start) / step⌋ + 1 = 3`. -/
theorem C1_counterexample :
    ((generatorValueLines 0 5 2).length : Int) ≠ (5 - 0 : Int).fdiv 2 + 1 := by
  decide

/-- C1 amended: for `start ≤ final` and positive `step`, the number of value
lines emitted before the count line is `⌊(final - start) / step⌋ + 1` when
`step` divides `final - start` evenly, and `⌊(final - start) / step⌋ + 2`
otherwise (the bound `final + step` makes the range overshoot `final` by one
extra value whenever the division is inexact). -/
theorem C1_theorem (start final step : Int) (h1 : 0 < step)
    (h2 : start ≤ final) :
    ((generatorValueLines start final step).length : Int) =
      (final - start).fdiv step +
        (if (final - start) % step = 0 then 1 else 2) := by
  rw [generatorValueLines_length]
  unfold pyRangeLen
  rw [if_pos h1]
  have harg : final + step - start + step - 1 = (final - start) + 2 * step - 1 := by
    ring
  rw [harg, ceil_shift _ _ h1]
  have hnn : 0 ≤ (final - start).fdiv step :=
    Int.fdiv_nonneg (by omega) (le_of_lt h1)
  have hpos : 0 ≤ (final - start).fdiv step +
      (if (final - start) % step = 0 then 1 else 2) := by
    split <;> linarith
  exact Int.toNat_of_nonneg hpos

/-- C1 witness: the amended count formula instantiated at
`start = 0, final = 5, step = 2`, where it gives `2 + 2 = 4` lines. -/
theorem C1_witness :
    (0 : Int) < 2 ∧ (0 : Int) ≤ 5 ∧
      ((generatorValueLines 0 5 2).length : Int) =
        (5 - 0 : Int).fdiv 2 + (if (5 - 0 : Int) % 2 = 0 then 1 else 2) :=
  ⟨by decide, by decide, C1_theorem 0 5 2 (by decide) (by decide)⟩

/-- C2 counterexample: at `start = 0, final = 10, step = 0` the program does
not loop forever emitting values; `range(0, 10, 0)` raises `ValueError`
immediately and nothing is printed. -/
theorem C2_counterexample : generatorRun 0 10 0 = none := rfl

/-- C2 amended: for every `start` and `final`, a step of zero makes the
`range` construction fail (Python raises `ValueError: range() arg 3 must not
be zero`), so the program terminates with an error and emits no lines; the
sequence is empty, not unbounded. -/
theorem C2_theorem (start final : Int) : generatorRun start final 0 = none := by
  simp [generatorRun]

/-- C5: the decimal count printed on the final line is exactly the decimal
rendering of the number of value lines emitted before it, since both come
from the same `array_range` object. -/
theorem C5_theorem (start final step : Int) (_h1 : 0 < step)
    (_h2 : start ≤ final) :
    generatorCountLine start final step =
      toDecNat (generatorValueLines start final step).length := by
  simp [generatorCountLine, generatorValueLines]

/-- C5 witness: count line versus value-line count at
`start = 0, final = 16, step = 16`. -/
theorem C5_witness :
    (0 : Int) < 16 ∧ (0 : Int) ≤ 16 ∧
      generatorCountLine 0 16 16 =
        toDecNat (generatorValueLines 0 16 16).length :=
  ⟨by decide, by decide, C5_theorem 0 16 16 (by decide) (by decide)⟩

/-- C7: for `start = 0x00000000, final = 0x00000010, step = 16` the output is
exactly the lines `0x0000_0000,`, `0x0000_0010,` and `2`, in that order. -/
theorem C7_theorem :
    generatorRun 0 16 16 =
      some ["0x0000_0000,".data, "0x0000_0010,".data, "2".data] := by
  decide

/-- C9: for positive `step` and `start ≥ final + step` the range
`range(start, final + step, step)` is empty, so no value lines are emitted
and the only output is the count line `0`. -/
theorem C9_theorem (start final step : Int) (h1 : 0 < step)
    (h2 : final + step ≤ start) :
    generatorRun start final step = some [['0']] := by
  have hlen : pyRangeLen start (final + step) step = 0 := by
    unfold pyRangeLen
    rw [if_pos h1]
    have hle : final + step - start + step - 1 ≤ step - 1 := by omega
    have hnp : (final + step - start + step - 1).fdiv step ≤ 0 := by
      rw [Int.fdiv_eq_ediv _ (le_of_lt h1)]
      calc (final + step - start + step - 1) / step
          ≤ (step - 1) / step := Int.ediv_le_ediv h1 hle
        _ = 0 := Int.ediv_eq_zero_of_lt (by omega) (by omega)
    omega
  have hne : step ≠ 0 := by omega
  rw [generatorRun, if_neg hne]
  simp [generatorValueLines, generatorCountLine, pyRange, hlen,
    show toDecNat 0 = ['0'] from rfl]

/-- C9 witness: for `start = 5, final = 0, step = 1` the output is the single
line `0`. -/
theorem C9_witness :
    (0 : Int) < 1 ∧ (0 : Int) + 1 ≤ 5 ∧ generatorRun 5 0 1 = some [['0']] :=
  ⟨by decide, by decide, C9_theorem 5 0 1 (by decide) (by decide)⟩

/-- Every value line rendered from a nonnegative value matches the pattern
`0x[0-9A-F]{4}_[0-9A-F]{4},`. -/
lemma matchesPattern_renderLine (v : Int) (hv : 0 ≤ v) :
    matchesPattern (renderLine v) = true := by
  have hlen := pyFormat08X_length v hv
  have hhex := pyFormat08X_hex v hv
  have ht : ((pyFormat08X v).take 4).length = 4 := by
    rw [List.length_take]; omega
  have hr : (((pyFormat08X v).drop 4).take 4).length = 4 := by
    rw [List.length_take, List.length_drop]; omega
  obtain ⟨a, b, c, d, htake⟩ := exists_four _ ht
  obtain ⟨e, f, g, k, hdrop⟩ := exists_four _ hr
  have hmem : ∀ x ∈ (pyFormat08X v).take 4, isUpperHexDigit x = true :=
    fun x hx => hhex x (List.mem_of_mem_take hx)
  have hmem2 : ∀ x ∈ ((pyFormat08X v).drop 4).take 4,
      isUpperHexDigit x = true :=
    fun x hx => hhex x (List.mem_of_mem_drop (List.mem_of_mem_take hx))
  rw [htake] at hmem
  rw [hdrop] at hmem2
  have ha := hmem a (by simp)
  have hb := hmem b (by simp)
  have hc := hmem c (by simp)
  have hd := hmem d (by simp)
  have he := hmem2 e (by simp)
  have hf := hmem2 f (by simp)
  have hg := hmem2 g (by simp)
  have hk := hmem2 k (by simp)
  rw [renderLine, htake, hdrop]
  simp [matchesPattern, ha, hb, hc, hd, he, hf, hg, hk]

/-- C3 counterexample: with `start = final = -1` and `step = 1` the single
sequence value is `-1`, rendered by Python's sign-aware padding as
`-0000001`, so the emitted line is `0x-000_0001,`, which does not match
`0x[0-9A-F]{4}_[0-9A-F]{4},`. -/
theorem C3_counterexample :
    (generatorValueLines (-1) (-1) 1).all matchesPattern = false := by
  decide

/-- C3 amended: for every `start`, `final` and nonzero `step` such that every
value of the generated sequence is nonnegative, every emitted value line
matches `0x[0-9A-F]{4}_[0-9A-F]{4},` (negative values insert a minus sign
into the fixed-width field and break the pattern). -/
theorem C3_theorem (start final step : Int) (_h : step ≠ 0)
    (hnn : ∀ v ∈ pyRange start (final + step) step, 0 ≤ v) :
    ∀ l ∈ generatorValueLines start final step, matchesPattern l = true := by
  intro l hl
  rw [generatorValueLines, List.mem_map] at hl
  obtain ⟨v, hv, rfl⟩ := hl
  exact matchesPattern_renderLine v (hnn v hv)

/-- C3 witness: at `start = 0, final = 1, step = 1` all sequence values are
nonnegative and both emitted lines match the pattern. -/
theorem C3_witness :
    (1 : Int) ≠ 0 ∧ (∀ v ∈ pyRange 0 (1 + 1) 1, (0 : Int) ≤ v) ∧
      ∀ l ∈ generatorValueLines 0 1 1, matchesPattern l = true :=
  ⟨by decide, by decide, C3_theorem 0 1 1 (by decide) (by decide)⟩

/-- C6 counterexample: for `start = 10, final = 0, step = 5` the difference
`final - start = -10` is an exact multiple of `step = 5`, yet
`range(10, 0 + 5, 5)` is empty, so the sequence does not include `final` at
all (the step points away from `final`). -/
theorem C6_counterexample : ¬ ((0 : Int) ∈ pyRange 10 (0 + 5) 5) := by
  decide

/-- C6 amended: for every `start`, `final` and nonzero `step` such that
`final - start` is a nonnegative exact multiple `k * step` of `step` (so the
step points from `start` toward `final`, counting down when `step` is
negative), the generated sequence ends with `final` itself. -/
theorem C6_theorem (start final step : Int) (k : Nat) (h : step ≠ 0)
    (hk : final - start = (k : Int) * step) :
    (pyRange start (final + step) step).getLast? = some final := by
  have hlen : pyRangeLen start (final + step) step = k + 1 := by
    rcases lt_trichotomy 0 step with hpos | hzero | hneg
    · unfold pyRangeLen
      rw [if_pos hpos]
      have harg : final + step - start + step - 1 =
          ((k : Int) + 1) * step + (step - 1) := by
        linear_combination hk
      rw [harg, fdiv_mul_add_pred step ((k : Int) + 1) hpos]
      omega
    · exact absurd hzero.symm h
    · unfold pyRangeLen
      rw [if_neg (by omega), if_pos hneg]
      have harg : start - (final + step) + (- step) - 1 =
          ((k : Int) + 1) * (- step) + ((- step) - 1) := by
        linear_combination (-1 : ℤ) * hk
      rw [harg, fdiv_mul_add_pred (- step) ((k : Int) + 1) (by omega)]
      omega
  rw [pyRange, hlen, List.range_succ, List.map_append]
  simp only [List.map_cons, List.map_nil]
  rw [List.getLast?_concat]
  have hfin : start + (k : Int) * step = final := by
    linear_combination (-1 : ℤ) * hk
  rw [hfin]

/-- C6 witness: for `start = 0, final = 10, step = 5` (so `10 - 0 = 2 * 5`)
the last sequence value is `10 = final`. -/
theorem C6_witness :
    (5 : Int) ≠ 0 ∧ (10 : Int) - 0 = ((2 : Nat) : Int) * 5 ∧
      (pyRange 0 (10 + 5) 5).getLast? = some 10 :=
  ⟨by decide, by decide, C6_theorem 0 10 5 2 (by decide) (by decide)⟩

/-- The digit alphabet round-trips through `hexCharVal`. -/
lemma hexCharVal_hexDigitChar (m : Nat) (h : m < 16) :
    hexCharVal (hexDigitChar m) = m := by
  interval_cases m <;> decide

/-- Appending one digit multiplies the decoded value by 16 and adds it. -/
lemma fromHexDigits_append_singleton (l : List Char) (c : Char) :
    fromHexDigits (l ++ [c]) = 16 * fromHexDigits l + hexCharVal c := by
  simp [fromHexDigits, List.foldl_append]

/-- Decoding the digit expansion gives back the encoded value. -/
lemma fromHexDigits_toHexNat (n : Nat) :
    fromHexDigits (toHexNat n) = n := by
  induction n using Nat.strong_induction_on with
  | _ n ih =>
    by_cases h : n < 16
    · rw [toHexNat_small n h]
      simp [fromHexDigits, List.foldl, hexCharVal_hexDigitChar n h]
    · rw [toHexNat_step n (by omega), fromHexDigits_append_singleton,
        ih (n / 16) (Nat.div_lt_self (by omega) (by omega)),
        hexCharVal_hexDigitChar (n % 16) (Nat.mod_lt n (by omega))]
      omega

/-- The digit expansion of a value in `[16^k, 16^(k+1))` has `k + 1`
digits. -/
lemma toHexNat_length_eq : ∀ k n, 16 ^ k ≤ n → n < 16 ^ (k + 1) →
    (toHexNat n).length = k + 1 := by
  intro k
  induction k with
  | zero =>
    intro n _ h2
    have hn : n < 16 := by simpa using h2
    rw [toHexNat_small n hn]
    rfl
  | succ k ih =>
    intro n h1 h2
    have h16 : 16 ≤ n := le_trans (Nat.le_self_pow (by omega) 16) h1
    rw [toHexNat_step n h16, List.length_append]
    have hlo : 16 ^ k ≤ n / 16 := by
      rw [Nat.le_div_iff_mul_le (by omega)]
      calc 16 ^ k * 16 = 16 ^ (k + 1) := by rw [pow_succ]
        _ ≤ n := h1
    have hhi : n / 16 < 16 ^ (k + 1) := by
      rw [Nat.div_lt_iff_lt_mul (by omega)]
      calc n < 16 ^ (k + 2) := h2
        _ = 16 ^ (k + 1) * 16 := by rw [pow_succ]
    rw [ih (n / 16) hlo hhi]
    rfl

/-- C10: a sequence value `v` with `2^32 ≤ v < 2^36` has nine hex digits;
its line is built from the first eight of them (four plus four around the
underscore), and the eight kept digits decode to `v / 16`, not `v`: the
least-significant digit is silently dropped. -/
theorem C10_theorem (v : Nat) (h1 : 2 ^ 32 ≤ v) (h2 : v < 2 ^ 36) :
    (toHexNat v).length = 9 ∧
    renderLine (v : Int) = '0' :: 'x' :: ((toHexNat v).take 4 ++
      '_' :: (((toHexNat v).drop 4).take 4 ++ [','])) ∧
    fromHexDigits ((toHexNat v).take 8) = v / 16 ∧
    v / 16 ≠ v := by
  have h1' : 16 ^ 8 ≤ v := by
    calc (16 : Nat) ^ 8 = 2 ^ 32 := by norm_num
      _ ≤ v := h1
  have h2' : v < 16 ^ 9 := by
    calc v < 2 ^ 36 := h2
      _ = 16 ^ 9 := by norm_num
  have h16 : 16 ≤ v := by
    have : (16 : Nat) ≤ 16 ^ 8 := Nat.le_self_pow (by omega) 16
    omega
  have hlen9 : (toHexNat v).length = 9 := toHexNat_length_eq 8 v h1' h2'
  have hfmt : pyFormat08X (v : Int) = toHexNat v := by
    rw [pyFormat08X, if_neg (by omega : ¬ ((v : Int) < 0))]
    simp [pad0, Int.natAbs_ofNat, hlen9]
  refine ⟨hlen9, ?_, ?_, ?_⟩
  · rw [renderLine, hfmt]
  · have hstep := toHexNat_step v h16
    have hlen8 : (toHexNat (v / 16)).length = 8 := by
      apply toHexNat_length_eq 7
      · rw [Nat.le_div_iff_mul_le (by omega)]
        calc 16 ^ 7 * 16 = 16 ^ 8 := by norm_num
          _ ≤ v := h1'
      · rw [Nat.div_lt_iff_lt_mul (by omega)]
        calc v < 16 ^ 9 := h2'
          _ = 16 ^ 8 * 16 := by norm_num
    rw [hstep, List.take_left' hlen8, fromHexDigits_toHexNat]
  · have hlt : v / 16 < v := Nat.div_lt_self (by omega) (by omega)
    omega

/-- C10 witness: at `v = 2^32` the nine digits are `100000000`, the line is
`0x1000_0000,` and the printed digits decode to `2^32 / 16 = 2^28 ≠ 2^32`. -/
theorem C10_witness :
    2 ^ 32 ≤ 2 ^ 32 ∧ (2 : Nat) ^ 32 < 2 ^ 36 ∧
      ((toHexNat (2 ^ 32)).length = 9 ∧
      renderLine ((2 ^ 32 : Nat) : Int) = '0' :: 'x' :: ((toHexNat (2 ^ 32)).take 4 ++
        '_' :: (((toHexNat (2 ^ 32)).drop 4).take 4 ++ [','])) ∧
      fromHexDigits ((toHexNat (2 ^ 32)).take 8) = 2 ^ 32 / 16 ∧
      (2 : Nat) ^ 32 / 16 ≠ 2 ^ 32) :=
  ⟨le_refl _, by norm_num, C10_theorem (2 ^ 32) (le_refl _) (by norm_num)⟩

/-- Line `i` of the enumeration loop started at index `k`. -/
lemma listerLoop_getElem? : ∀ (entries : List DirEntry) (k i : Nat)
    (e : DirEntry), entries[i]? = some e →
    (listerLoop k entries)[i]? =
      some (toDecNat (k + i + 1) ++ ' ' :: pyStem e.name) := by
  intro entries
  induction entries with
  | nil => intro k i e h; simp at h
  | cons hd tl ih =>
    intro k i e h
    cases i with
    | zero =>
      simp only [List.getElem?_cons_zero, Option.some.injEq] at h
      subst h
      simp [listerLoop]
    | succ j =>
      simp only [List.getElem?_cons_succ] at h
      have harith : k + 1 + j + 1 = k + (j + 1) + 1 := by omega
      simp only [listerLoop, List.getElem?_cons_succ]
      rw [ih (k + 1) j e h, harith]

/-- C4 counterexample: a directory named `v1.0` is not printed by its own
name; `path.stem` is applied to directories too, so the line is `1 v1`, not
`1 v1.0`. -/
theorem C4_counterexample :
    listerLoop 0 [⟨"v1.0".data, true⟩] ≠ ["1 v1.0".data] := by
  decide

/-- C4 amended: each printed line is the 1-based enumeration index followed
by the entry's base name with its final extension stripped (pathlib's
`stem`), applied uniformly to files and directories alike; a directory name
containing a dot is stripped as well. -/
theorem C4_theorem (entries : List DirEntry) (i : Nat) (e : DirEntry)
    (h : entries[i]? = some e) :
    (listerLoop 0 entries)[i]? =
      some (toDecNat (i + 1) ++ ' ' :: pyStem e.name) := by
  have hmain := listerLoop_getElem? entries 0 i e h
  simpa using hmain

/-- C4 witness: a single file `notes.txt` is printed as `1 notes`. -/
theorem C4_witness :
    ([(⟨"notes.txt".data, false⟩ : DirEntry)][0]? =
        some (⟨"notes.txt".data, false⟩ : DirEntry)) ∧
      (listerLoop 0 [⟨"notes.txt".data, false⟩])[0]? =
        some (toDecNat (0 + 1) ++ ' ' :: pyStem "notes.txt".data) :=
  ⟨rfl, C4_theorem [⟨"notes.txt".data, false⟩] 0 ⟨"notes.txt".data, false⟩ rfl⟩

/-- C8: whenever the resolved examples path is missing, or exists but is not
a directory, the lister prints exactly two lines — the matching generic
message, then the resolved path preceded by `" - "` — exits with status 1,
and prints no entry lines. -/
theorem C8_theorem (fs : ExamplesFS) (path : List Char)
    (h : fs.pathExists = false ∨ fs.isDir = false) :
    listerRun fs path =
      ([(if fs.pathExists = true then
          "Path to examples is not a directory.".data
        else "Path to examples does not exist.".data),
        " - ".data ++ path], 1) := by
  cases hPE : fs.pathExists <;> simp_all [listerRun]

/-- C8 witness: against a filesystem where the path is missing, the run is
the two-line diagnostic with exit code 1. -/
theorem C8_witness :
    ((false : Bool) = false ∨ (false : Bool) = false) ∧
      listerRun ⟨false, false, []⟩ "/repo/examples".data =
        ([(if (false : Bool) = true then
            "Path to examples is not a directory.".data
          else "Path to examples does not exist.".data),
          " - ".data ++ "/repo/examples".data], 1) :=
  ⟨Or.inl rfl, C8_theorem ⟨false, false, []⟩ "/repo/examples".data (Or.inl rfl)⟩

